import Mathlib

/-!
Shallow embedding of the ensembling core of the `ml-competition` repository:
`make_weighted_submission.py` (tiered, weighted, penalized ensemble) and
`make_majority_submission.py` (top-N majority vote selection).

Floating-point numbers of the scripts are modelled as exact rationals (ℚ);
tables loaded from CSV are modelled as association lists from a row
identifier (ℕ) to a numeric label (ℚ), with identifiers assumed unique
within a table, matching the spec's PredictionTable invariant.  The
file-system boundary (`os.path.exists` + `pd.read_csv` + column checks) is
modelled by a `Loader` function returning an optional raw CSV together with
flags saying whether the required columns are present.
-/

namespace MLComp

/-- Table models one loaded prediction table: a finite map from `row_id`
to the numeric value of the `target` column, as an association list. -/
abbrev Table := List (Nat × ℚ)

/-- lookupD models reading the label of row `i` from a table (0 when the
row is absent; it is only ever used on rows present in the table). -/
def lookupD (t : Table) (i : Nat) : ℚ := ((t.lookup i).getD 0)

/-- MetaRow models one row of `submissions_metadata.csv`: the
`output_file` name and the `kaggle_score` column, `none` standing for a
blank / non-numeric (NaN) score. -/
structure MetaRow where
  output_file : String
  kaggle_score : Option ℚ
deriving DecidableEq

/-- ALPHA constant of make_weighted_submission.py (the float 4.0; the
exponent is the natural number 4). -/
def ALPHA : Nat := 4

/-- MIN_SCORE constant of make_weighted_submission.py (0.70). -/
def MIN_SCORE : ℚ := 7/10

/-- BAD_LIMIT constant of make_weighted_submission.py (0.4). -/
def BAD_LIMIT : ℚ := 2/5

/-- BAD_WEIGHT constant of make_weighted_submission.py (0.9). -/
def BAD_WEIGHT : ℚ := 9/10

/-- THRESHOLD constant of make_weighted_submission.py (0.5). -/
def THRESHOLD : ℚ := 1/2

/-- numericMeta models `meta[meta["kaggle_score"].notna()]` followed by
`astype(float)`: keep rows with a numeric score, as (file, score) pairs. -/
def numericMeta (meta : List MetaRow) : List (String × ℚ) :=
  meta.filterMap (fun r => r.kaggle_score.map (fun s => (r.output_file, s)))

/-- goodMeta models `meta[meta["kaggle_score"] >= MIN_SCORE]`. -/
def goodMeta (m : List (String × ℚ)) : List (String × ℚ) :=
  m.filter (fun p => MIN_SCORE ≤ p.2)

/-- badMeta models `meta[meta["kaggle_score"] <= BAD_LIMIT]`. -/
def badMeta (m : List (String × ℚ)) : List (String × ℚ) :=
  m.filter (fun p => p.2 ≤ BAD_LIMIT)

/-- SelectError models the two `ValueError`s raised while filtering the
metadata (the spec's `ConfigurationError` taxon). -/
inductive SelectError
  | noScores
  | emptyGoodTier
deriving DecidableEq

/-- selectSources models lines 35-49 of make_weighted_submission.py:
drop non-numeric scores, fail when nothing is left, split into good and
bad tiers, fail when the good tier is empty. -/
def selectSources (meta : List MetaRow) :
    Except SelectError (List (String × ℚ) × List (String × ℚ)) :=
  if (numericMeta meta).isEmpty then .error .noScores
  else if (goodMeta (numericMeta meta)).isEmpty then .error .emptyGoodTier
  else .ok (goodMeta (numericMeta meta), badMeta (numericMeta meta))

/-- powScores models `np.power(good_scores, ALPHA)`. -/
def powScores (scores : List ℚ) (a : Nat) : List ℚ :=
  scores.map (fun s => s ^ a)

/-- goodWeights models lines 70-71 of make_weighted_submission.py:
`good_weights = np.power(good_scores, ALPHA); good_weights /= sum`. -/
def goodWeights (scores : List ℚ) (a : Nat) : List ℚ :=
  (powScores scores a).map (fun w => w / (powScores scores a).sum)

/-- RawCSV models the result of `pd.read_csv` on a submission file: two
flags for the presence of the `row_id` and `target` columns and the rows
of the (row_id, target) projection. -/
structure RawCSV where
  hasIdCol : Bool
  hasPredCol : Bool
  rows : Table
deriving DecidableEq

/-- Loader models the file-system boundary: `none` when
`os.path.exists` is false, otherwise the parsed CSV. -/
abbrev Loader := String → Option RawCSV

/-- LoadError models the `FileNotFoundError` / `ValueError`s of the
good-model loading loop; each names the offending source file. -/
inductive LoadError
  | fileNotFound (fname : String)
  | missingIdCol (fname : String)
  | missingPredCol (fname : String)
deriving DecidableEq

/-- LoadError.source extracts the source file name carried by the error
message. -/
def LoadError.source : LoadError → String
  | .fileNotFound f => f
  | .missingIdCol f => f
  | .missingPredCol f => f

/-- loadGoodTable models one iteration of the good-model loading loop
(lines 88-101): missing file or missing required column raises, naming
the file; otherwise the (row_id, target) projection is kept. -/
def loadGoodTable (L : Loader) (fname : String) : Except LoadError Table :=
  match L fname with
  | none => .error (.fileNotFound fname)
  | some c =>
    if c.hasIdCol = false then .error (.missingIdCol fname)
    else if c.hasPredCol = false then .error (.missingPredCol fname)
    else .ok c.rows

/-- loadGoodTables models the whole good-model loading loop: sources are
processed in order and the first failure aborts the run. -/
def loadGoodTables (L : Loader) : List String → Except LoadError (List Table)
  | [] => .ok []
  | f :: fs =>
    match loadGoodTable L f with
    | .error e => .error e
    | .ok t =>
      match loadGoodTables L fs with
      | .error e => .error e
      | .ok ts => .ok (t :: ts)

/-- loadBadTable models one iteration of the bad-model loading loop
(lines 107-121): a missing file or missing required column is skipped
(`continue` after a console warning) instead of raising. -/
def loadBadTable (L : Loader) (fname : String) : Option Table :=
  match L fname with
  | none => none
  | some c =>
    if c.hasIdCol = false then none
    else if c.hasPredCol = false then none
    else some c.rows

/-- loadBadTables models the whole bad-model loading loop: failing
sources are dropped, the loop never aborts. -/
def loadBadTables (L : Loader) (files : List String) : List Table :=
  files.filterMap (loadBadTable L)

/-- allHaveRow decides whether every table in `ts` has a row with
identifier `i`. -/
def allHaveRow (ts : List Table) (i : Nat) : Bool :=
  ts.all (fun u => (u.lookup i).isSome)

/-- joinedIds models the chain of `df_final.merge(df, on=ID_COL,
how="inner")` over all loaded tables (good first, then bad): the row
identifiers of the first table, restricted to those present in every
other table, in the first table's order (pandas inner merge preserves
left key order; identifiers are unique per table). -/
def joinedIds : List Table → List Nat
  | [] => []
  | t :: rest => (t.map Prod.fst).filter (allHaveRow rest)

/-- goodVote models line 137: the weighted sum of the good labels of a
row, `(df_final[good_pred_cols].values * good_weight_vec).sum(axis=1)`. -/
def goodVote (ws : List ℚ) (ts : List Table) (i : Nat) : ℚ :=
  ((ws.zip ts).map (fun p => p.1 * lookupD p.2 i)).sum

/-- badLabels lists the labels of row `i` across the loaded bad tables
(one value per bad prediction column of `df_final`). -/
def badLabels (ts : List Table) (i : Nat) : List ℚ :=
  ts.map (fun t => lookupD t i)

/-- badVote models lines 140-144: the unweighted mean of the bad labels
of a row when bad columns exist (`df_final[bad_pred_cols].mean(axis=1)`),
0 otherwise. -/
def badVote (ts : List Table) (i : Nat) : ℚ :=
  if ts.isEmpty then 0 else (badLabels ts i).sum / (ts.length : ℚ)

/-- finalScore models line 147:
`final_score = good_vote - BAD_WEIGHT * bad_vote`. -/
def finalScore (ws : List ℚ) (goodTs badTs : List Table) (i : Nat) : ℚ :=
  goodVote ws goodTs i - BAD_WEIGHT * badVote badTs i

/-- finalLabel models line 150:
`df_final[PRED_COL_NAME] = (final_score >= THRESHOLD).astype(int)`. -/
def finalLabel (ws : List ℚ) (goodTs badTs : List Table) (i : Nat) : Nat :=
  if THRESHOLD ≤ finalScore ws goodTs badTs i then 1 else 0

/-- insertLe inserts an element into a list sorted ascending by `key`,
before the first element with a key that is not smaller; inserting the
originally-earlier element last makes the sort stable. -/
def insertLe {α : Type} {β : Type} [LinearOrder β] (key : α → β) (x : α) :
    List α → List α
  | [] => [x]
  | y :: ys => if key x ≤ key y then x :: y :: ys else y :: insertLe key x ys

/-- insortAsc is a stable ascending insertion sort by `key`.  It models
numpy's ascending argsort as executed on small inputs (numpy's default
quicksort runs plain insertion sort on partitions shorter than 16
elements, and insertion sort is stable). -/
def insortAsc {α : Type} {β : Type} [LinearOrder β] (key : α → β) :
    List α → List α
  | [] => []
  | x :: xs => insertLe key x (insortAsc key xs)

/-- PipeError collects the fatal errors of make_weighted_submission.py's
main (metadata filtering and good-model loading). -/
inductive PipeError
  | metaError (e : SelectError)
  | goodLoadError (e : LoadError)
deriving DecidableEq

/-- outputRows models lines 150-154: one (row_id, label) row per joined
identifier, sorted ascending by identifier
(`df_final[[ID_COL, PRED_COL_NAME]].sort_values(ID_COL)`). -/
def outputRows (ws : List ℚ) (goodTs badTs : List Table) : List (Nat × Nat) :=
  insortAsc Prod.fst
    ((joinedIds (goodTs ++ badTs)).map (fun i => (i, finalLabel ws goodTs badTs i)))

/-- makeWeightedSubmission models the whole `main()` of
make_weighted_submission.py, from the metadata table and the file-system
boundary to the rows of the written CSV (or the first fatal error). -/
def makeWeightedSubmission (L : Loader) (meta : List MetaRow) :
    Except PipeError (List (Nat × Nat)) :=
  match selectSources meta with
  | .error e => .error (.metaError e)
  | .ok gb =>
    match loadGoodTables L (gb.1.map Prod.fst) with
    | .error e => .error (.goodLoadError e)
    | .ok goodTs =>
      .ok (outputRows (goodWeights (gb.1.map Prod.snd) ALPHA) goodTs
        (loadBadTables L (gb.2.map Prod.fst)))

/-- TOP_N constant of make_majority_submission.py. -/
def TOP_N : Nat := 3

/-- sortDescByScore models `meta.sort_values("kaggle_score",
ascending=False)` of make_majority_submission.py (line 31): pandas
computes the ascending argsort of the column and reverses the resulting
indexer when `ascending=False`, so the descending order is the reverse
of an ascending argsort.  numpy's default quicksort argsort coincides
with the stable insertion sort `insortAsc` only for arrays of fewer
than 16 elements (larger partitions use introsort, whose tie order is
not guaranteed), so every tie-order statement proved about this model
is restricted to metadata tables of fewer than 16 records; the
permutation, descending-sortedness and truncation facts do not depend
on tie order and hold regardless. -/
def sortDescByScore (m : List (String × ℚ)) : List (String × ℚ) :=
  (insortAsc Prod.snd m).reverse

/-- topMeta models `meta.head(TOP_N)` after the descending sort (lines
31-32), for a general top-n parameter. -/
def topMeta (n : Nat) (m : List (String × ℚ)) : List (String × ℚ) :=
  (sortDescByScore m).take n

/-- scoreIs decides whether a metadata record carries exactly the score
`k`; filtering with it extracts the subsequence of records tied at
score `k`. -/
def scoreIs (k : ℚ) (a : String × ℚ) : Bool := decide (a.2 = k)

/-- emptyLoader models a file system on which no submission file exists. -/
def emptyLoader : Loader := fun _ => none

/-- cexLoader1 is a concrete file system: one good submission covering
rows 1 and 2, one bad submission covering only row 1. -/
def cexLoader1 : Loader := fun f =>
  if f = "g.csv" then some ⟨true, true, [(1, 1), (2, 1)]⟩
  else if f = "b.csv" then some ⟨true, true, [(1, 1)]⟩
  else none

/-- cexMeta1 is a concrete metadata table: `g.csv` scores 1 (good tier)
and `b.csv` scores 0 (bad tier). -/
def cexMeta1 : List MetaRow := [⟨ "g.csv", some 1⟩, ⟨ "b.csv", some 0⟩]

/-- cexLoader2 is a concrete file system with two good submissions on
disjoint row identifiers, so their inner join is empty. -/
def cexLoader2 : Loader := fun f =>
  if f = "g1.csv" then some ⟨true, true, [(1, 1)]⟩
  else if f = "g2.csv" then some ⟨true, true, [(2, 1)]⟩
  else none

/-- cexMeta2 is a concrete metadata table with two good-tier sources. -/
def cexMeta2 : List MetaRow := [⟨ "g1.csv", some 1⟩, ⟨ "g2.csv", some 1⟩]

/-- cexLoader10 is a concrete file system whose single good submission
carries the non-binary numeric label 7 at row 1. -/
def cexLoader10 : Loader := fun f =>
  if f = "g.csv" then some ⟨true, true, [(1, 7)]⟩ else none

/-- cexMeta10 is a concrete metadata table with one good-tier source. -/
def cexMeta10 : List MetaRow := [⟨ "g.csv", some 1⟩]

-- helper lemmas -------------------------------------------------------------

theorem insertLe_perm {α β : Type} [LinearOrder β] (key : α → β) (x : α)
    (l : List α) : (insertLe key x l).Perm (x :: l) := by
  induction l with
  | nil => simp [insertLe]
  | cons y ys ih =>
    simp only [insertLe]
    split
    · exact List.Perm.refl _
    · exact (ih.cons y).trans (List.Perm.swap x y ys)

theorem insortAsc_perm {α β : Type} [LinearOrder β] (key : α → β)
    (l : List α) : (insortAsc key l).Perm l := by
  induction l with
  | nil => simp [insortAsc]
  | cons x xs ih =>
    exact (insertLe_perm key x (insortAsc key xs)).trans (ih.cons x)

theorem mem_insertLe {α β : Type} [LinearOrder β] (key : α → β) (x a : α)
    (l : List α) : a ∈ insertLe key x l ↔ a = x ∨ a ∈ l := by
  rw [(insertLe_perm key x l).mem_iff, List.mem_cons]

theorem pairwise_insertLe {α β : Type} [LinearOrder β] (key : α → β) (x : α)
    (l : List α) (h : l.Pairwise (fun a b => key a ≤ key b)) :
    (insertLe key x l).Pairwise (fun a b => key a ≤ key b) := by
  induction l with
  | nil => simp [insertLe]
  | cons y ys ih =>
    rw [List.pairwise_cons] at h
    obtain ⟨hy, hys⟩ := h
    simp only [insertLe]
    split
    · rename_i hxy
      rw [List.pairwise_cons]
      refine ⟨?_, by rw [List.pairwise_cons]; exact ⟨hy, hys⟩⟩
      intro b hb
      rcases List.mem_cons.mp hb with hb | hb
      · exact hb ▸ hxy
      · exact le_trans hxy (hy b hb)
    · rename_i hxy
      rw [List.pairwise_cons]
      constructor
      · intro b hb
        rcases (mem_insertLe key x b ys).mp hb with hb | hb
        · exact hb ▸ le_of_not_le hxy
        · exact hy b hb
      · exact ih hys

theorem pairwise_insortAsc {α β : Type} [LinearOrder β] (key : α → β)
    (l : List α) : (insortAsc key l).Pairwise (fun a b => key a ≤ key b) := by
  induction l with
  | nil => simp [insortAsc]
  | cons x xs ih => exact pairwise_insertLe key x _ ih

theorem mem_insortAsc {α β : Type} [LinearOrder β] (key : α → β) (a : α)
    (l : List α) : a ∈ insortAsc key l ↔ a ∈ l :=
  (insortAsc_perm key l).mem_iff

theorem filter_scoreIs_insertLe (x : String × ℚ) (l : List (String × ℚ))
    (k : ℚ) :
    (insertLe Prod.snd x l).filter (scoreIs k) =
      if x.2 = k then x :: l.filter (scoreIs k) else l.filter (scoreIs k) := by
  induction l with
  | nil =>
    by_cases hx : x.2 = k <;> simp [insertLe, scoreIs, hx]
  | cons y ys ih =>
    by_cases hx : x.2 = k
    · have hxs : scoreIs k x = true := by simp [scoreIs, hx]
      by_cases hy : y.2 = k
      · have hys : scoreIs k y = true := by simp [scoreIs, hy]
        have hle : x.2 ≤ y.2 := le_of_eq (hx.trans hy.symm)
        simp [insertLe, List.filter_cons, hle, hx, hy, hxs, hys]
      · have hys : scoreIs k y = false := by simp [scoreIs, hy]
        by_cases hle : x.2 ≤ y.2
        · rw [hx] at hle
          simp [insertLe, List.filter_cons, hle, hx, hxs, hys]
        · rw [hx] at hle
          simp [insertLe, List.filter_cons, hle, hx, hxs, hys, ih]
    · have hxs : scoreIs k x = false := by simp [scoreIs, hx]
      by_cases hle : x.2 ≤ y.2
      · simp [insertLe, List.filter_cons, hle, hx, hxs]
      · simp [insertLe, List.filter_cons, hle, hx, hxs, ih]

theorem filter_scoreIs_insortAsc (l : List (String × ℚ)) (k : ℚ) :
    (insortAsc Prod.snd l).filter (scoreIs k) = l.filter (scoreIs k) := by
  induction l with
  | nil => rfl
  | cons x xs ih =>
    rw [insortAsc, filter_scoreIs_insertLe]
    by_cases hx : x.2 = k
    · have hxs : scoreIs k x = true := by simp [scoreIs, hx]
      simp [List.filter_cons, hx, hxs, ih]
    · have hxs : scoreIs k x = false := by simp [scoreIs, hx]
      simp [List.filter_cons, hx, hxs, ih]

-- C5 ------------------------------------------------------------------------

/-- C5, counterexample: with two records of equal score, top-1 selection
returns the record that came later in the metadata, not the earlier one:
pandas' descending sort reverses the (stable) ascending order, so ties
are emitted in reverse original order, contradicting the claimed
original-order tie-break. -/
theorem topMeta_tie_reversed_cex :
    topMeta 1 [( "a", (1:ℚ)/2), ( "b", 1/2)] = [( "b", 1/2)] ∧
    topMeta 1 [( "a", (1:ℚ)/2), ( "b", 1/2)] ≠ [( "a", 1/2)] := by
  constructor <;> simp [topMeta, sortDescByScore, insortAsc, insertLe]

/-- C5 (amended): top-n selection keeps the first n records of the
descending sort, which is a permutation of the eligible records sorted
so that scores never increase; when n is at least the number of records
the whole sorted list is kept (no error); and for metadata tables of
fewer than 16 records — the regime in which numpy's default quicksort
argsort is a stable insertion sort, so the model is exact — the records
tied at any given score appear in reverse original metadata order (the
tied subsequence of the output is the reverse of the tied subsequence
of the input, for every score). -/
theorem topMeta_selection_properties (m : List (String × ℚ)) (n : Nat) :
    (sortDescByScore m).Perm m ∧
    (sortDescByScore m).Pairwise (fun a b => b.2 ≤ a.2) ∧
    (m.length ≤ n → topMeta n m = sortDescByScore m) ∧
    (m.length < 16 → ∀ k : ℚ,
      (sortDescByScore m).filter (scoreIs k) =
        (m.filter (scoreIs k)).reverse) := by
  refine ⟨?_, ?_, ?_, ?_⟩
  · exact (List.reverse_perm _).trans (insortAsc_perm Prod.snd m)
  · rw [sortDescByScore, List.pairwise_reverse]
    exact pairwise_insortAsc Prod.snd m
  · intro h
    rw [topMeta]
    apply List.take_of_length_le
    rw [sortDescByScore, List.length_reverse, (insortAsc_perm Prod.snd m).length_eq]
    exact h
  · intro _ k
    rw [sortDescByScore, List.filter_reverse, filter_scoreIs_insortAsc]

/-- C5, witness: the amended selection properties evaluated at concrete
inputs: the full-tier no-op when n exceeds the size, and the records of
a small table tied at score 1/2 coming out in reversed order. -/
theorem topMeta_selection_properties_inst :
    topMeta 5 [( "a", (1:ℚ)), ( "b", 2)] = sortDescByScore [( "a", (1:ℚ)), ( "b", 2)] ∧
    (sortDescByScore [( "c", (1:ℚ)/2), ( "d", 1/2)]).filter (scoreIs ((1:ℚ)/2)) =
      ([( "c", (1:ℚ)/2), ( "d", 1/2)].filter (scoreIs ((1:ℚ)/2))).reverse :=
  ⟨(topMeta_selection_properties [( "a", (1:ℚ)), ( "b", 2)] 5).2.2.1 (by simp),
   (topMeta_selection_properties [( "c", (1:ℚ)/2), ( "d", 1/2)] 0).2.2.2
     (by norm_num) ((1:ℚ)/2)⟩

-- C3 / C7 helper lemmas ------------------------------------------------------

theorem goodWeights_eq_map (l : List ℚ) (a : Nat) :
    goodWeights l a = l.map (fun s => s ^ a / (powScores l a).sum) := by
  rw [goodWeights, powScores, List.map_map]
  rfl

theorem powScores_sum_pos (l : List ℚ) (a : Nat) (hne : l ≠ [])
    (hpos : ∀ s ∈ l, 0 < s) : 0 < (powScores l a).sum := by
  have h1 : powScores l a ≠ [] := by
    rw [powScores, Ne, List.map_eq_nil_iff]
    exact hne
  refine List.sum_pos _ ?_ h1
  intro x hx
  rw [powScores, List.mem_map] at hx
  obtain ⟨s, hs, rfl⟩ := hx
  exact pow_pos (hpos s hs) a

theorem powScores_sum_nonneg (l : List ℚ) (a : Nat)
    (hpos : ∀ s ∈ l, 0 < s) : 0 ≤ (powScores l a).sum := by
  refine List.sum_nonneg ?_
  intro x hx
  rw [powScores, List.mem_map] at hx
  obtain ⟨s, hs, rfl⟩ := hx
  exact le_of_lt (pow_pos (hpos s hs) a)

theorem sum_map_div (l : List ℚ) (S : ℚ) :
    (l.map (fun w => w / S)).sum = l.sum / S := by
  induction l with
  | nil => simp
  | cons x xs ih => simp [ih, add_div]

theorem frac_self_add_mono (a b R : ℚ) (ha : 0 < a) (hab : a ≤ b)
    (hR : 0 ≤ R) : a / (a + R) ≤ b / (b + R) := by
  have hb : 0 < b := lt_of_lt_of_le ha hab
  rw [div_le_div_iff₀ (by linarith) (by linarith)]
  nlinarith

-- C3 ------------------------------------------------------------------------

/-- C3: for a non-empty good tier (scores positive, as guaranteed by
`score ≥ MIN_SCORE = 0.70`), the derived weights are exactly
`score_i ^ α / Σ score_j ^ α` and they sum to exactly 1 (so in
particular within any floating tolerance). -/
theorem goodWeights_formula_sum_one (scores : List ℚ) (a : Nat)
    (hne : scores ≠ []) (hpos : ∀ s ∈ scores, 0 < s) :
    goodWeights scores a
      = scores.map (fun s => s ^ a / (powScores scores a).sum) ∧
    (goodWeights scores a).sum = 1 := by
  have hS := powScores_sum_pos scores a hne hpos
  refine ⟨goodWeights_eq_map scores a, ?_⟩
  rw [goodWeights, sum_map_div]
  exact div_self (ne_of_gt hS)

/-- C3, witness: the weights of the two-source tier with scores 0.9 and
0.7 at α = ALPHA sum to 1. -/
theorem goodWeights_formula_sum_one_inst :
    (goodWeights [(9:ℚ)/10, 7/10] ALPHA).sum = 1 :=
  (goodWeights_formula_sum_one [(9:ℚ)/10, 7/10] ALPHA (by simp)
    (by norm_num [List.forall_mem_cons])).2

-- C7 ------------------------------------------------------------------------

theorem goodWeights_getD_middle (pre post : List ℚ) (z : ℚ) (a : Nat) :
    (goodWeights (pre ++ z :: post) a).getD pre.length 0
      = z ^ a / (powScores (pre ++ z :: post) a).sum := by
  rw [goodWeights_eq_map, List.getD_eq_getElem?_getD, List.getElem?_map,
    List.getElem?_append_right (le_refl pre.length)]
  simp

theorem powScores_sum_append_cons (pre post : List ℚ) (z : ℚ) (a : Nat) :
    (powScores (pre ++ z :: post) a).sum
      = z ^ a + ((powScores pre a).sum + (powScores post a).sum) := by
  rw [powScores, List.map_append, List.sum_append, List.map_cons, List.sum_cons]
  rw [powScores, powScores]
  ring

/-- C7: in a good tier of positive scores, raising one source's score
while all other scores stay fixed never decreases that source's
normalized weight (for any exponent α = a ∈ ℕ, including a = 0). -/
theorem goodWeight_monotone_in_score (pre post : List ℚ) (x y : ℚ) (a : Nat)
    (hx : 0 < x) (hxy : x ≤ y) (hp : ∀ s ∈ pre ++ post, 0 < s) :
    (goodWeights (pre ++ x :: post) a).getD pre.length 0 ≤
    (goodWeights (pre ++ y :: post) a).getD pre.length 0 := by
  rw [goodWeights_getD_middle, goodWeights_getD_middle,
    powScores_sum_append_cons, powScores_sum_append_cons]
  have hpre : ∀ s ∈ pre, 0 < s := fun s hs =>
    hp s (List.mem_append.mpr (Or.inl hs))
  have hpost : ∀ s ∈ post, 0 < s := fun s hs =>
    hp s (List.mem_append.mpr (Or.inr hs))
  have hR : 0 ≤ (powScores pre a).sum + (powScores post a).sum :=
    add_nonneg (powScores_sum_nonneg pre a hpre)
      (powScores_sum_nonneg post a hpost)
  exact frac_self_add_mono (x ^ a) (y ^ a) _ (pow_pos hx a)
    (pow_le_pow_left₀ (le_of_lt hx) hxy a) hR

/-- C7, witness: raising the second source's score from 0.7 to 0.9 in the
tier [0.7, ·] does not decrease its weight, at α = ALPHA. -/
theorem goodWeight_monotone_in_score_inst :
    (goodWeights ([(7:ℚ)/10] ++ (7:ℚ)/10 :: []) ALPHA).getD 1 0 ≤
    (goodWeights ([(7:ℚ)/10] ++ (9:ℚ)/10 :: []) ALPHA).getD 1 0 :=
  goodWeight_monotone_in_score [(7:ℚ)/10] [] ((7:ℚ)/10) ((9:ℚ)/10) ALPHA
    (by norm_num) (by norm_num) (by norm_num [List.forall_mem_cons])

-- C4 ------------------------------------------------------------------------

theorem finalLabel_eq_one_iff (ws : List ℚ) (goodTs badTs : List Table)
    (i : Nat) :
    finalLabel ws goodTs badTs i = 1 ↔
      THRESHOLD ≤ finalScore ws goodTs badTs i := by
  rw [finalLabel]
  split
  · rename_i hc
    exact iff_of_true rfl hc
  · rename_i hc
    exact iff_of_false (by omega) hc

theorem finalLabel_eq_zero_iff (ws : List ℚ) (goodTs badTs : List Table)
    (i : Nat) :
    finalLabel ws goodTs badTs i = 0 ↔
      finalScore ws goodTs badTs i < THRESHOLD := by
  rw [finalLabel]
  split
  · rename_i hc
    exact iff_of_false (by omega) (not_lt.mpr hc)
  · rename_i hc
    exact iff_of_true rfl (not_le.mp hc)

/-- C4: every (row, label) pair of the emitted table has label 1 exactly
when the row's final score is at least THRESHOLD (so an exact tie gives
label 1) and label 0 exactly when the final score is strictly below
THRESHOLD. -/
theorem output_label_iff_threshold (ws : List ℚ) (goodTs badTs : List Table)
    (i lab : Nat) (h : (i, lab) ∈ outputRows ws goodTs badTs) :
    (lab = 1 ↔ THRESHOLD ≤ finalScore ws goodTs badTs i) ∧
    (lab = 0 ↔ finalScore ws goodTs badTs i < THRESHOLD) := by
  rw [outputRows, mem_insortAsc, List.mem_map] at h
  obtain ⟨j, hj, hpair⟩ := h
  have h1 : j = i := congrArg Prod.fst hpair
  have h2 : finalLabel ws goodTs badTs j = lab := congrArg Prod.snd hpair
  subst h1
  subst h2
  exact ⟨finalLabel_eq_one_iff _ _ _ _, finalLabel_eq_zero_iff _ _ _ _⟩

/-- C4, witness: in a single-source ensemble with weight 1 and label 1
at row 1 (final score 1 ≥ THRESHOLD), the emitted label 1 satisfies both
equivalences. -/
theorem output_label_iff_threshold_inst :
    ((1:Nat) = 1 ↔ THRESHOLD ≤ finalScore (goodWeights [1] ALPHA) [[(1, 1)]] [] 1) ∧
    ((1:Nat) = 0 ↔ finalScore (goodWeights [1] ALPHA) [[(1, 1)]] [] 1 < THRESHOLD) :=
  output_label_iff_threshold (goodWeights [1] ALPHA) [[(1, 1)]] [] 1 1
    (by norm_num [outputRows, insortAsc, insertLe, joinedIds, allHaveRow,
      finalLabel, finalScore, goodVote, badVote, badLabels, lookupD,
      List.lookup, goodWeights, powScores, ALPHA, THRESHOLD, BAD_WEIGHT])

-- C6 ------------------------------------------------------------------------

/-- C6: when the good tier is empty after dropping records without a
numeric score, the weighted-submission run fails with a metadata error
(the `ValueError`s of lines 38-49, the spec's ConfigurationError) and
produces no output. -/
theorem empty_good_tier_errors (L : Loader) (meta : List MetaRow)
    (h : goodMeta (numericMeta meta) = []) :
    makeWeightedSubmission L meta =
      .error (.metaError
        (if (numericMeta meta).isEmpty then .noScores else .emptyGoodTier)) := by
  by_cases h0 : (numericMeta meta).isEmpty
  · simp [makeWeightedSubmission, selectSources, h0]
  · simp [makeWeightedSubmission, selectSources, h0, h]

/-- C6, witness: a metadata table whose only record scores 0.3 has an
empty good tier, and the run errors out. -/
theorem empty_good_tier_errors_inst :
    makeWeightedSubmission emptyLoader [⟨ "a.csv", some (3/10)⟩] =
      .error (.metaError
        (if (numericMeta [⟨ "a.csv", some (3/10)⟩]).isEmpty then .noScores
         else .emptyGoodTier)) :=
  empty_good_tier_errors emptyLoader [⟨ "a.csv", some (3/10)⟩]
    (by norm_num [goodMeta, numericMeta, MIN_SCORE, List.filter])

-- C8 ------------------------------------------------------------------------

theorem loadGoodTable_error_source (L : Loader) (f : String) (e : LoadError)
    (h : loadGoodTable L f = .error e) : e.source = f := by
  rw [loadGoodTable] at h
  split at h
  · cases h
    rfl
  · split at h
    · cases h
      rfl
    · split at h
      · cases h
        rfl
      · exact Except.noConfusion h

/-- C8: while loading the good tier, the first source whose file is
missing or whose table lacks the identifier or label column aborts the
whole load with an error naming that source, regardless of how many
sources follow; earlier sources that loaded fine do not mask it. -/
theorem good_load_failure_fatal_names_source (L : Loader) (pre : List String)
    (f : String) (fs : List String) (e : LoadError)
    (hpre : ∀ g ∈ pre, ∃ t, loadGoodTable L g = .ok t)
    (hf : loadGoodTable L f = .error e) :
    loadGoodTables L (pre ++ f :: fs) = .error e ∧ e.source = f := by
  refine ⟨?_, loadGoodTable_error_source L f e hf⟩
  induction pre with
  | nil => simp [loadGoodTables, hf]
  | cons g gs ih =>
    obtain ⟨t, ht⟩ := hpre g (List.mem_cons_self g gs)
    have hrest := ih (fun g2 hg2 => hpre g2 (List.mem_cons_of_mem g hg2))
    simp [loadGoodTables, ht, hrest]

/-- C8, witness: on a file system with no files, loading the good tier
consisting of the single source `g.csv` fails with an error naming
`g.csv`. -/
theorem good_load_failure_fatal_names_source_inst :
    loadGoodTables emptyLoader ([] ++ "g.csv" :: []) =
      .error (.fileNotFound "g.csv") ∧
    (LoadError.fileNotFound "g.csv").source = "g.csv" :=
  good_load_failure_fatal_names_source emptyLoader [] "g.csv" []
    (.fileNotFound "g.csv") (by simp) rfl

-- C9 ------------------------------------------------------------------------

theorem loadGoodTable_error_bad_none (L : Loader) (f : String) (e : LoadError)
    (h : loadGoodTable L f = .error e) : loadBadTable L f = none := by
  rw [loadGoodTable] at h
  split at h
  · rename_i hL
    simp [loadBadTable, hL]
  · rename_i c hL
    split at h
    · rename_i h1
      simp [loadBadTable, hL, h1]
    · rename_i h1
      split at h
      · rename_i h2
        simp [loadBadTable, hL, h1, h2]
      · exact Except.noConfusion h

/-- C9: the same load failure is handled asymmetrically by the two
tiers: a failing source at the head of the good tier aborts the whole
good load with that error, while in the bad tier it is skipped and the
remaining bad sources are still loaded. -/
theorem load_failure_asymmetry (L : Loader) (f : String) (fs : List String)
    (e : LoadError) (hf : loadGoodTable L f = .error e) :
    loadGoodTables L (f :: fs) = .error e ∧
    loadBadTables L (f :: fs) = loadBadTables L fs := by
  constructor
  · simp [loadGoodTables, hf]
  · simp [loadBadTables, List.filterMap_cons,
      loadGoodTable_error_bad_none L f e hf]

/-- C9, witness: with no files on disk, `g.csv` aborts the good-tier
load but is silently skipped by the bad-tier load. -/
theorem load_failure_asymmetry_inst :
    loadGoodTables emptyLoader ( "g.csv" :: []) =
      .error (.fileNotFound "g.csv") ∧
    loadBadTables emptyLoader ( "g.csv" :: []) = loadBadTables emptyLoader [] :=
  load_failure_asymmetry emptyLoader "g.csv" [] (.fileNotFound "g.csv") rfl

-- C10 -----------------------------------------------------------------------

/-- C10: no step of the run validates that labels are 0 or 1: whenever
selection and good-tier loading succeed, the run returns an output (no
error), with no hypothesis at all on the label values of the loaded
tables; and arbitrary numeric labels flow unchanged into the votes
(shown for a one-source good vote and a one-source bad vote). -/
theorem labels_flow_unvalidated (L : Loader) (meta : List MetaRow)
    (gb : List (String × ℚ) × List (String × ℚ)) (goodTs : List Table)
    (w v : ℚ) (i : Nat)
    (h1 : selectSources meta = .ok gb)
    (h2 : loadGoodTables L (gb.1.map Prod.fst) = .ok goodTs) :
    makeWeightedSubmission L meta
      = .ok (outputRows (goodWeights (gb.1.map Prod.snd) ALPHA) goodTs
          (loadBadTables L (gb.2.map Prod.fst))) ∧
    goodVote [w] [[(i, v)]] i = w * v ∧
    badVote [[(i, v)]] i = v := by
  refine ⟨?_, ?_, ?_⟩
  · simp [makeWeightedSubmission, h1, h2]
  · simp [goodVote, lookupD, List.lookup]
  · simp [badVote, badLabels, lookupD, List.lookup]

/-- C10, witness: a good source whose label at row 1 is the non-binary
value 7 still yields an output file, and the raw value 7 flows into the
votes. -/
theorem labels_flow_unvalidated_inst :
    makeWeightedSubmission cexLoader10 cexMeta10
      = .ok (outputRows
          (goodWeights ((([( "g.csv", (1:ℚ))], ([] : List (String × ℚ)))).1.map Prod.snd) ALPHA)
          [[(1, 7)]]
          (loadBadTables cexLoader10
            ((([( "g.csv", (1:ℚ))], ([] : List (String × ℚ)))).2.map Prod.fst))) ∧
    goodVote [(2:ℚ)] [[(1, 7)]] 1 = 2 * 7 ∧
    badVote [[(1, (7:ℚ))]] 1 = 7 :=
  labels_flow_unvalidated cexLoader10 cexMeta10
    ([( "g.csv", (1:ℚ))], ([] : List (String × ℚ))) [[(1, 7)]] 2 7 1
    (by
      norm_num [selectSources, numericMeta, goodMeta, badMeta, cexMeta10,
        MIN_SCORE, BAD_LIMIT, List.filter]
      intro hcontra
      cases hcontra)
    (by simp [loadGoodTables, loadGoodTable, cexLoader10])

-- C1 ------------------------------------------------------------------------

/-- C1, counterexample: with one good table covering rows 1 and 2 and
one bad table covering only row 1, the run keeps only row 1: the bad
table is merged with an inner join too, so row 2 — present in every
good table but absent from the bad table — is dropped from the output
instead of being kept with a zero bad vote. -/
theorem badTable_inner_join_drops_row_cex :
    makeWeightedSubmission cexLoader1 cexMeta1 = .ok [(1, 0)] ∧
    joinedIds [[(1, 1), (2, 1)]] = [1, 2] ∧
    2 ∉ (outputRows (goodWeights [(1:ℚ)] ALPHA) [[(1, 1), (2, 1)]]
          [[(1, 1)]]).map Prod.fst := by
  refine ⟨?_, ?_, ?_⟩
  · have h1 : numericMeta cexMeta1 = [( "g.csv", 1), ( "b.csv", 0)] := by
      simp [numericMeta, cexMeta1]
    have hsel : selectSources cexMeta1 = .ok ([( "g.csv", 1)], [( "b.csv", 0)]) := by
      rw [selectSources, h1]
      norm_num [goodMeta, badMeta, MIN_SCORE, BAD_LIMIT, List.filter]
    have hload : loadGoodTables cexLoader1 [ "g.csv"] = .ok [[(1, 1), (2, 1)]] := by
      simp [loadGoodTables, loadGoodTable, cexLoader1]
    have hbad : loadBadTables cexLoader1 [ "b.csv"] = [[(1, 1)]] := by
      simp [loadBadTables, loadBadTable, cexLoader1]
    have hids : joinedIds ([[(1, 1), (2, 1)]] ++ [[(1, 1)]]) = [1] := by
      simp [joinedIds, allHaveRow, List.lookup, List.filter]
    have hlabel :
        finalLabel (goodWeights [(1:ℚ)] ALPHA) [[(1, 1), (2, 1)]] [[(1, 1)]] 1 = 0 := by
      norm_num [finalLabel, finalScore, goodVote, badVote, badLabels, lookupD,
        List.lookup, goodWeights, powScores, ALPHA, BAD_WEIGHT, THRESHOLD]
    simp only [makeWeightedSubmission, hsel, List.map_cons, List.map_nil, hload, hbad]
    rw [outputRows, hids]
    simp only [List.map_cons, List.map_nil, hlabel, insortAsc, insertLe]
  · simp [joinedIds, allHaveRow, List.filter]
  · have hids : joinedIds ([[(1, 1), (2, 1)]] ++ [[(1, 1)]]) = [1] := by
      simp [joinedIds, allHaveRow, List.lookup, List.filter]
    rw [outputRows, hids]
    simp [insortAsc, insertLe]

/-- C1 (amended): the bad tables are inner-joined as well: a row
identifier survives to the output exactly when it is in the good join
and present in every loaded bad table; for surviving rows the bad vote
is the mean of the labels over all loaded bad sources (each of which
has a value after the join), and it is 0 when no bad source was
loaded. -/
theorem badVote_and_join_after_bad_merge (t : Table) (rest badTs : List Table)
    (i : Nat) :
    (i ∈ joinedIds ((t :: rest) ++ badTs) ↔
      i ∈ joinedIds (t :: rest) ∧ allHaveRow badTs i = true) ∧
    (badTs = [] → badVote badTs i = 0) ∧
    (badTs ≠ [] →
      badVote badTs i = (badLabels badTs i).sum / (badTs.length : ℚ)) := by
  refine ⟨?_, ?_, ?_⟩
  · simp [joinedIds, allHaveRow, List.mem_filter, List.all_append,
      Bool.and_eq_true]
    tauto
  · intro h
    simp [h, badVote]
  · intro h
    rw [badVote, if_neg (by simpa [List.isEmpty_iff] using h)]

/-- C1, witness: the amended join/vote characterization evaluated at the
counterexample's tables, at row 2. -/
theorem badVote_and_join_after_bad_merge_inst :
    (2 ∈ joinedIds ((([(1, 1), (2, 1)] : Table) :: []) ++ [[(1, 1)]]) ↔
      2 ∈ joinedIds (([(1, 1), (2, 1)] : Table) :: []) ∧
        allHaveRow [[(1, 1)]] 2 = true) ∧
    (([[(1, 1)]] : List Table) = [] → badVote [[(1, 1)]] 2 = 0) ∧
    (([[(1, 1)]] : List Table) ≠ [] →
      badVote [[(1, 1)]] 2 =
        (badLabels [[(1, 1)]] 2).sum / (([[(1, 1)]] : List Table).length : ℚ)) :=
  badVote_and_join_after_bad_merge [(1, 1), (2, 1)] [] [[(1, 1)]] 2

-- C2 ------------------------------------------------------------------------

/-- C2, counterexample: two good sources on disjoint row identifiers
have an empty inner join, yet the run does not fail: it returns an
empty output table (the script writes a header-only CSV), no
EmptyEnsembleError exists in the code. -/
theorem empty_join_no_error_cex :
    joinedIds [[(1, 1)], [(2, 1)]] = [] ∧
    makeWeightedSubmission cexLoader2 cexMeta2 = .ok [] := by
  constructor
  · simp [joinedIds, allHaveRow, List.lookup, List.filter]
  · have h1 : numericMeta cexMeta2 = [( "g1.csv", 1), ( "g2.csv", 1)] := by
      simp [numericMeta, cexMeta2]
    have hsel : selectSources cexMeta2 =
        .ok ([( "g1.csv", 1), ( "g2.csv", 1)], []) := by
      rw [selectSources, h1]
      norm_num [goodMeta, badMeta, MIN_SCORE, BAD_LIMIT, List.filter]
    have hload : loadGoodTables cexLoader2 [ "g1.csv", "g2.csv"] =
        .ok [[(1, 1)], [(2, 1)]] := by
      simp [loadGoodTables, loadGoodTable, cexLoader2]
    have hids : joinedIds ([[(1, 1)], [(2, 1)]] ++ []) = [] := by
      simp [joinedIds, allHaveRow, List.lookup, List.filter]
    simp only [makeWeightedSubmission, hsel, List.map_cons, List.map_nil, hload,
      loadBadTables, List.filterMap_nil]
    rw [outputRows, hids]
    simp [insortAsc]

/-- C2 (amended): when selection and good-tier loading succeed but the
inner join over all loaded tables is empty, the run completes without
any error and emits an empty prediction table. -/
theorem empty_join_yields_empty_ok (L : Loader) (meta : List MetaRow)
    (gb : List (String × ℚ) × List (String × ℚ)) (goodTs : List Table)
    (h1 : selectSources meta = .ok gb)
    (h2 : loadGoodTables L (gb.1.map Prod.fst) = .ok goodTs)
    (h3 : joinedIds (goodTs ++ loadBadTables L (gb.2.map Prod.fst)) = []) :
    makeWeightedSubmission L meta = .ok [] := by
  simp [makeWeightedSubmission, h1, h2, outputRows, h3, insortAsc]

/-- C2, witness: the empty-join run on the concrete disjoint sources
returns an empty output. -/
theorem empty_join_yields_empty_ok_inst :
    makeWeightedSubmission cexLoader2 cexMeta2 = .ok [] :=
  empty_join_yields_empty_ok cexLoader2 cexMeta2
    ([( "g1.csv", (1:ℚ)), ( "g2.csv", 1)], []) [[(1, 1)], [(2, 1)]]
    (by
      norm_num [selectSources, numericMeta, goodMeta, badMeta, cexMeta2,
        MIN_SCORE, BAD_LIMIT, List.filter]
      intro hcontra
      cases hcontra)
    (by simp [loadGoodTables, loadGoodTable, cexLoader2])
    (by simp [joinedIds, allHaveRow, loadBadTables, List.lookup, List.filter])

end MLComp
